import Mathlib

/-!
Shallow embedding of the writeX-server route logic (Express/Mongoose backend):
auth routes (register/login), user routes (follow toggle), post routes
(create/update/like/comment/delete-comment) and note routes (update).

Identifiers are modelled as `Nat` (Mongo ObjectIds are abstract ids; all ids
appearing here are assumed well-formed, since the ObjectId-format guard is
orthogonal to every claim).  The express-validator collaborators `isEmail`
and the password-hash collaborators `hash`/`verify` are abstract function
parameters, as the spec treats them.  JS `undefined` for an optional body
field is modelled as `Option.none`.
-/

namespace WriteX

/-- HTTP-level error outcomes produced by the route handlers:
`validation` is a 400 with an express-validator error array, `badRequest`
a 400 with a single message, `notAuthorized` a 403, `notFound` a 404. -/
inductive HttpError where
  | validation : List String → HttpError
  | badRequest : String → HttpError
  | notAuthorized : String → HttpError
  | notFound : String → HttpError
deriving Repr, DecidableEq

/-- User document (models/User): credential hash in `password`,
follower/following edges as lists of user ids. -/
structure User where
  id : Nat
  username : String := ""
  email : String := ""
  password : String := ""
  bio : String := ""
  avatar : String := ""
  followers : List Nat := []
  following : List Nat := []
deriving Repr, DecidableEq, Inhabited

/-- Embedded comment subdocument of a post. -/
structure Comment where
  id : Nat
  user : Nat
  content : String
deriving Repr, DecidableEq, Inhabited

/-- Post document: `likes` holds the user id of each like entry. -/
structure Post where
  id : Nat
  author : Nat
  content : String
  likes : List Nat := []
  comments : List Comment := []
deriving Repr, DecidableEq, Inhabited

/-- Note document. -/
structure Note where
  id : Nat
  user : Nat
  title : String
  content : String
  tags : List String := []
  isPinned : Bool := false
deriving Repr, DecidableEq, Inhabited

/-- express-validator `.notEmpty()` with its default options: the string is
non-empty iff its length is nonzero.  No trimming and no whitespace
handling is applied (`ignore_whitespace` defaults to false). -/
def notEmpty (s : String) : Bool := s.length != 0

/-- JS `Array.prototype.findIndex`, returning `none` for -1: index of the
first element satisfying `p`. -/
def findIndex (p : α → Bool) : List α → Option Nat
  | [] => none
  | a :: l => if p a then some 0 else (findIndex p l).map (· + 1)

/-! ### Auth routes (routes/auth.js) -/

/-- Error array produced by the POST /api/auth/register validator chain. -/
def registerValidation (isEmail : String → Bool) (username email password : String) :
    List String :=
  (if username.length < 3 then ["Username must be at least 3 characters"] else []) ++
  (if isEmail email then [] else ["Please enter a valid email"]) ++
  (if password.length < 6 then ["Password must be at least 6 characters"] else [])

/-- POST /api/auth/register: validator chain, duplicate check on email OR
username, then user creation (the model layer stores `hash password`).
Returns the handler outcome (token modelled by the new user id, plus the
created user) together with the resulting user store. -/
def registerUser (isEmail : String → Bool) (hash : String → String) (users : List User)
    (username email password : String) (newId : Nat) :
    Except HttpError (Nat × User) × List User :=
  let errs := registerValidation isEmail username email password
  if errs ≠ [] then
    (.error (.validation errs), users)
  else if users.any (fun u => u.email == email || u.username == username) then
    (.error (.badRequest "User already exists"), users)
  else
    let u : User := { id := newId, username := username, email := email,
                      password := hash password }
    (.ok (u.id, u), users ++ [u])

/-- Error array produced by the POST /api/auth/login validator chain
(`password` is `none` when the field is absent from the body). -/
def loginValidation (isEmail : String → Bool) (email : String) (password : Option String) :
    List String :=
  (if isEmail email then [] else ["Please enter a valid email"]) ++
  (if password.isSome then [] else ["Password is required"])

/-- POST /api/auth/login: validator chain, lookup by exact email, then
`comparePassword` via the abstract `verify plaintext storedHash`. -/
def loginUser (isEmail : String → Bool) (verify : String → String → Bool)
    (users : List User) (email : String) (password : Option String) :
    Except HttpError (Nat × User) :=
  let errs := loginValidation isEmail email password
  if errs ≠ [] then
    .error (.validation errs)
  else
    match users.find? (fun u => u.email == email) with
    | none => .error (.badRequest "Invalid credentials")
    | some user =>
      if verify (password.getD "") user.password then
        .ok (user.id, user)
      else
        .error (.badRequest "Invalid credentials")

/-! ### User routes (routes/users.js) -/

/-- POST /api/users/:id/follow, lines 80-107: the state transition on the
two already-looked-up user records (`currentUser` is the actor, the route
fetched `userToFollow` by the path id; a missing target is a 404 upstream
of this core).  Returns the two updated records plus the response payload
`(isFollowing, followersCount)`. -/
def toggleFollow (currentUser userToFollow : User) :
    Except HttpError (User × User × Bool × Nat) :=
  if userToFollow.id == currentUser.id then
    .error (.badRequest "You cannot follow yourself")
  else
    let isFollowing := currentUser.following.contains userToFollow.id
    if isFollowing then
      let cu := { currentUser with
                  following := currentUser.following.filter (fun uid => uid != userToFollow.id) }
      let tf := { userToFollow with
                  followers := userToFollow.followers.filter (fun uid => uid != currentUser.id) }
      .ok (cu, tf, false, tf.followers.length)
    else
      let cu := { currentUser with following := currentUser.following ++ [userToFollow.id] }
      let tf := { userToFollow with followers := userToFollow.followers ++ [currentUser.id] }
      .ok (cu, tf, true, tf.followers.length)

/-- Two immediate invocations of `toggleFollow` by the same actor on the
same target, each applied to the records produced by the previous one. -/
def toggleFollowTwice (a b : User) : Except HttpError (User × User) := do
  let (a1, b1, _, _) ← toggleFollow a b
  let (a2, b2, _, _) ← toggleFollow a1 b1
  pure (a2, b2)

/-- Modelled from the spec: `isConnected(A,B)` is true iff A follows B, or
B follows A, or A = B.  (The spec states this predicate; the code under
`src/routes/posts.js` implements its own gate `isFollowingOrFollower`,
compared against this one.) -/
def isConnectedSpec (a b : User) : Bool :=
  a.following.contains b.id || b.following.contains a.id || a.id == b.id

/-! ### Post routes (routes/posts.js) -/

/-- The connectivity gate of the like and comment handlers
(posts.js lines 168-171 and 239-242): the actor follows the author
(checked on the actor record), or the actor appears among the author
followers (the same edge checked on the author record), or the actor is
the author. -/
def isFollowingOrFollower (currentUser postAuthor : User) (authorId actorId : Nat) : Bool :=
  currentUser.following.contains authorId ||
  postAuthor.followers.contains actorId ||
  authorId == actorId

/-- The like toggle of posts.js lines 179-189: findIndex of the actor in
the likes array; splice it out when found, push the actor otherwise. -/
def toggleLike (likes : List Nat) (actorId : Nat) : List Nat :=
  match findIndex (fun uid => uid == actorId) likes with
  | some i => likes.eraseIdx i
  | none => likes ++ [actorId]

/-- POST /api/posts/:id/like: post lookup, actor lookup, author lookup,
connectivity gate, then the like toggle. -/
def likePost (users : List User) (posts : List Post) (postId actorId : Nat) :
    Except HttpError Post :=
  match posts.find? (fun p => p.id == postId) with
  | none => .error (.notFound "Post not found")
  | some post =>
    match users.find? (fun u => u.id == actorId) with
    | none => .error (.notFound "User not found")
    | some currentUser =>
      match users.find? (fun u => u.id == post.author) with
      | none => .error (.notFound "Post author not found")
      | some postAuthor =>
        if isFollowingOrFollower currentUser postAuthor post.author actorId then
          .ok { post with likes := toggleLike post.likes actorId }
        else
          .error (.notAuthorized
            "You must follow this user or be their follower to like their posts")

/-- POST /api/posts/:id/comment: content validator, post lookup, actor
lookup, author lookup, the same connectivity gate, then append the new
comment at the end (`newCommentId` models the generated subdocument id). -/
def addComment (users : List User) (posts : List Post) (postId actorId : Nat)
    (content : String) (newCommentId : Nat) : Except HttpError Post :=
  if !(notEmpty content) then
    .error (.validation ["Comment content is required"])
  else
    match posts.find? (fun p => p.id == postId) with
    | none => .error (.notFound "Post not found")
    | some post =>
      match users.find? (fun u => u.id == actorId) with
      | none => .error (.notFound "User not found")
      | some currentUser =>
        match users.find? (fun u => u.id == post.author) with
        | none => .error (.notFound "Post author not found")
        | some postAuthor =>
          if isFollowingOrFollower currentUser postAuthor post.author actorId then
            .ok { post with comments := post.comments ++
                    [{ id := newCommentId, user := actorId, content := content }] }
          else
            .error (.notAuthorized
              "You must follow this user or be their follower to comment on their posts")

/-- POST /api/posts: content validator then creation; returns the handler
outcome and the resulting post store. -/
def createPost (posts : List Post) (actorId : Nat) (content : String) (newId : Nat) :
    Except HttpError Post × List Post :=
  if !(notEmpty content) then
    (.error (.validation ["Content is required"]), posts)
  else
    let p : Post := { id := newId, author := actorId, content := content }
    (.ok p, posts ++ [p])

/-- PUT /api/posts/:id: content validator, post lookup, ownership check,
then the content overwrite. -/
def updatePost (posts : List Post) (postId actorId : Nat) (content : String) :
    Except HttpError Post :=
  if !(notEmpty content) then
    .error (.validation ["Content is required"])
  else
    match posts.find? (fun p => p.id == postId) with
    | none => .error (.notFound "Post not found")
    | some post =>
      if post.author != actorId then
        .error (.notAuthorized "Not authorized")
      else
        .ok { post with content := content }

/-- DELETE /api/posts/:postId/comments/:commentId: post lookup, findIndex
of the comment id, authorization against the comment author, then splice. -/
def deleteComment (posts : List Post) (postId commentId actorId : Nat) :
    Except HttpError Post :=
  match posts.find? (fun p => p.id == postId) with
  | none => .error (.notFound "Post not found")
  | some post =>
    match findIndex (fun c => c.id == commentId) post.comments with
    | none => .error (.notFound "Comment not found")
    | some i =>
      if (post.comments.getD i default).user != actorId then
        .error (.notAuthorized "Not authorized to delete this comment")
      else
        .ok { post with comments := post.comments.eraseIdx i }

/-! ### Note routes (routes/notes.js) -/

/-- Error array of the PUT /api/notes/:id (and POST /api/notes) validator
chain. -/
def noteValidation (title content : String) : List String :=
  (if notEmpty title then [] else ["Title is required"]) ++
  (if notEmpty content then [] else ["Content is required"])

/-- PUT /api/notes/:id: validators, lookup, ownership, then the field
assignment block `note.tags = tags || []` and
`note.isPinned = isPinned !== undefined ? isPinned : note.isPinned`
(absent body fields are `none`). -/
def updateNote (notes : List Note) (noteId actorId : Nat) (title content : String)
    (tags : Option (List String)) (isPinned : Option Bool) : Except HttpError Note :=
  let errs := noteValidation title content
  if errs ≠ [] then
    .error (.validation errs)
  else
    match notes.find? (fun n => n.id == noteId) with
    | none => .error (.notFound "Note not found")
    | some note =>
      if note.user != actorId then
        .error (.notAuthorized "Not authorized")
      else
        .ok { note with title := title, content := content,
                        tags := tags.getD [],
                        isPinned := isPinned.getD note.isPinned }

/-! ### Helper lemmas -/

theorem findIndex_nil (p : α → Bool) : findIndex p [] = none := rfl

theorem findIndex_cons (p : α → Bool) (a : α) (l : List α) :
    findIndex p (a :: l) = if p a then some 0 else (findIndex p l).map (· + 1) := rfl

theorem findIndex_eq_none_iff (p : α → Bool) (l : List α) :
    findIndex p l = none ↔ ∀ a ∈ l, p a = false := by
  induction l with
  | nil => simp [findIndex]
  | cons x l ih =>
    rw [findIndex_cons]
    by_cases hx : p x = true
    · simp [hx]
    · rw [Bool.not_eq_true] at hx
      rw [hx, if_neg (by simp)]
      cases hfl : findIndex p l with
      | none =>
        constructor
        · intro _ a ha
          rcases List.mem_cons.mp ha with rfl | ha2
          · exact hx
          · exact (ih.mp hfl) a ha2
        · intro _
          rfl
      | some j =>
        constructor
        · intro h
          exact absurd h (by simp)
        · intro h
          have hnone : findIndex p l = none :=
            ih.mpr (fun a ha => h a (List.mem_cons_of_mem x ha))
          rw [hnone] at hfl
          cases hfl

theorem findIndex_getD_mem {p : α → Bool} {l : List α} {i : Nat}
    (h : findIndex p l = some i) (d : α) :
    l.getD i d ∈ l ∧ p (l.getD i d) = true := by
  induction l generalizing i with
  | nil => simp [findIndex] at h
  | cons x l ih =>
    rw [findIndex_cons] at h
    by_cases hx : p x = true
    · rw [if_pos hx] at h
      cases h
      simp [hx]
    · rw [Bool.not_eq_true] at hx
      rw [hx, if_neg (by simp)] at h
      cases hfl : findIndex p l with
      | none => rw [hfl] at h; cases h
      | some j =>
        rw [hfl] at h
        cases h
        have := ih hfl
        simp only [List.getD_cons_succ, List.mem_cons]
        exact ⟨Or.inr this.1, this.2⟩

theorem findIndex_eraseIdx {p : α → Bool} {l : List α} {i : Nat}
    (h : findIndex p l = some i) : l.eraseIdx i = l.eraseP p := by
  induction l generalizing i with
  | nil => simp [findIndex] at h
  | cons x l ih =>
    rw [findIndex_cons] at h
    by_cases hx : p x = true
    · rw [if_pos hx] at h
      cases h
      simp [List.eraseP_cons, hx]
    · rw [Bool.not_eq_true] at hx
      rw [hx, if_neg (by simp)] at h
      cases hfl : findIndex p l with
      | none => rw [hfl] at h; cases h
      | some j =>
        rw [hfl] at h
        cases h
        simp [List.eraseP_cons, hx, List.eraseIdx_cons_succ, ih hfl]

theorem toggleLike_cons (x : Nat) (l : List Nat) (a : Nat) :
    toggleLike (x :: l) a = if x = a then l else x :: toggleLike l a := by
  unfold toggleLike
  rw [findIndex_cons]
  by_cases hx : x = a
  · simp [hx]
  · have hb : (x == a) = false := by simp [hx]
    simp only [hb, if_false, hx]
    cases hfi : findIndex (fun uid => uid == a) l with
    | none => simp
    | some i => simp [List.eraseIdx_cons_succ]

theorem toggleLike_of_not_mem {l : List Nat} {a : Nat} (h : a ∉ l) :
    toggleLike l a = l ++ [a] := by
  induction l with
  | nil => rfl
  | cons x l ih =>
    rw [toggleLike_cons]
    have hx : x ≠ a := fun hxa => h (hxa ▸ List.mem_cons_self x l)
    rw [if_neg hx, ih (fun ha => h (List.mem_cons_of_mem x ha))]
    rfl

theorem toggleLike_of_mem {l : List Nat} {a : Nat} (h : a ∈ l) :
    toggleLike l a = l.erase a := by
  induction l with
  | nil => cases h
  | cons x l ih =>
    rw [toggleLike_cons, List.erase_cons]
    by_cases hx : x = a
    · simp [hx]
    · have hb : (x == a) = false := by simp [hx]
      rw [if_neg hx, hb, if_neg (by simp)]
      rcases List.mem_cons.mp h with hxa | hla
      · exact absurd hxa.symm hx
      · rw [ih hla]

theorem toggleLike_nodup {l : List Nat} {a : Nat} (h : l.Nodup) :
    (toggleLike l a).Nodup := by
  by_cases hm : a ∈ l
  · rw [toggleLike_of_mem hm, List.erase_eq_eraseP]
    exact h.eraseP _
  · rw [toggleLike_of_not_mem hm]
    rw [List.nodup_append]
    exact ⟨h, List.nodup_singleton a, by simpa using hm⟩

/-! ### Claim theorems -/

/-- Claim C2: for a connected actor, `toggleLike` removes the actor entry
from the likes list when one is present (after which the actor is absent)
and appends one when absent; hence a likes list with each user id at most
once keeps that property across the call. -/
theorem toggleLike_no_duplicates (l : List Nat) (a : Nat) (h : l.Nodup) :
    (a ∈ l → toggleLike l a = l.erase a ∧ a ∉ toggleLike l a) ∧
    (a ∉ l → toggleLike l a = l ++ [a] ∧ a ∈ toggleLike l a) ∧
    (toggleLike l a).Nodup := by
  refine ⟨fun hm => ⟨toggleLike_of_mem hm, ?_⟩,
          fun hm => ⟨toggleLike_of_not_mem hm, ?_⟩, toggleLike_nodup h⟩
  · rw [toggleLike_of_mem hm]
    intro hmem
    exact absurd (h.mem_erase_iff.mp hmem).1 (by simp)
  · rw [toggleLike_of_not_mem hm]
    simp

theorem toggleLike_no_duplicates_witness :
    toggleLike [1, 2] 2 = [1] ∧ (toggleLike [1, 2] 2).Nodup := by
  have h := toggleLike_no_duplicates [1, 2] 2 (by decide)
  refine ⟨?_, h.2.2⟩
  rw [(h.1 (by decide)).1]
  decide

/-- Claim C3: invoking `toggleLike` twice by the same actor on the same
post returns the likes list to its original length and membership
(stated for a likes list satisfying the no-duplicates invariant of the
data model). -/
theorem toggleLike_twice_restores (l : List Nat) (a : Nat) (h : l.Nodup) :
    (toggleLike (toggleLike l a) a).length = l.length ∧
    (∀ x, x ∈ toggleLike (toggleLike l a) a ↔ x ∈ l) := by
  by_cases hm : a ∈ l
  · rw [toggleLike_of_mem hm]
    have hnotmem : a ∉ l.erase a := by
      intro hmem
      exact absurd (h.mem_erase_iff.mp hmem).1 (by simp)
    rw [toggleLike_of_not_mem hnotmem]
    constructor
    · rw [List.length_append, List.length_erase_of_mem hm, List.length_singleton]
      exact Nat.succ_pred_eq_of_pos (List.length_pos.mpr (List.ne_nil_of_mem hm))
    · intro x
      rw [List.mem_append, h.mem_erase_iff, List.mem_singleton]
      constructor
      · rintro (⟨_, hx⟩ | rfl)
        · exact hx
        · exact hm
      · intro hx
        by_cases hxa : x = a
        · exact Or.inr hxa
        · exact Or.inl ⟨hxa, hx⟩
  · rw [toggleLike_of_not_mem hm]
    have : toggleLike (l ++ [a]) a = l := by
      rw [toggleLike_of_mem (by simp), List.erase_append_right _ hm]
      simp
    rw [this]
    exact ⟨rfl, fun _ => Iff.rfl⟩

theorem toggleLike_twice_restores_witness :
    (toggleLike (toggleLike [5, 7] 5) 5).length = 2 ∧
    (7 ∈ toggleLike (toggleLike [5, 7] 5) 5 ↔ 7 ∈ [5, 7]) :=
  have h := toggleLike_twice_restores [5, 7] 5 (by decide)
  ⟨h.1, h.2 7⟩

theorem toggleFollow_of_following {a b : User} (hne : b.id ≠ a.id)
    (h : b.id ∈ a.following) :
    toggleFollow a b =
      .ok ({ a with following := a.following.filter (fun uid => uid != b.id) },
           { b with followers := b.followers.filter (fun uid => uid != a.id) }, false,
           (b.followers.filter (fun uid => uid != a.id)).length) := by
  unfold toggleFollow
  rw [if_neg (by simp [hne])]
  have hc : a.following.contains b.id = true := by
    simp [List.contains, h]
  simp only [hc, if_true]

theorem toggleFollow_of_not_following {a b : User} (hne : b.id ≠ a.id)
    (h : b.id ∉ a.following) :
    toggleFollow a b =
      .ok ({ a with following := a.following ++ [b.id] },
           { b with followers := b.followers ++ [a.id] }, true,
           (b.followers ++ [a.id]).length) := by
  unfold toggleFollow
  rw [if_neg (by simp [hne])]
  have hc : a.following.contains b.id = false := by
    simp [List.contains, h]
  simp only [hc, Bool.false_eq_true, if_false]

/-- Claim C5: a successful `toggleFollow(A,B)` updates both sides of the
edge together: when A was following B it removes B from `A.following` and
A from `B.followers`, otherwise it adds B to `A.following` and A to
`B.followers`; consequently the symmetry of the edge for this pair is
preserved. -/
theorem toggleFollow_updates_both_sides (a b a1 b1 : User) (f : Bool) (c : Nat)
    (h : toggleFollow a b = .ok (a1, b1, f, c)) :
    (b.id ∈ a.following → b.id ∉ a1.following ∧ a.id ∉ b1.followers) ∧
    (b.id ∉ a.following → b.id ∈ a1.following ∧ a.id ∈ b1.followers) ∧
    ((b.id ∈ a.following ↔ a.id ∈ b.followers) →
      (b.id ∈ a1.following ↔ a.id ∈ b1.followers)) := by
  have hne : b.id ≠ a.id := by
    intro hid
    rw [toggleFollow, if_pos (by simp [hid])] at h
    cases h
  by_cases hm : b.id ∈ a.following
  · rw [toggleFollow_of_following hne hm] at h
    simp only [Except.ok.injEq, Prod.mk.injEq] at h
    obtain ⟨ha1, hb1, -, -⟩ := h
    subst ha1; subst hb1
    refine ⟨fun _ => ⟨?_, ?_⟩, fun hm2 => absurd hm hm2, fun _ => ?_⟩
    · simp
    · simp
    · simp
  · rw [toggleFollow_of_not_following hne hm] at h
    simp only [Except.ok.injEq, Prod.mk.injEq] at h
    obtain ⟨ha1, hb1, -, -⟩ := h
    subst ha1; subst hb1
    refine ⟨fun hm2 => absurd hm2 hm, fun _ => ⟨?_, ?_⟩, fun _ => ?_⟩
    · simp
    · simp
    · simp

theorem toggleFollow_updates_both_sides_witness :
    3 ∉ ({ id := 2, following := [3] } : User).following.filter (fun uid => uid != 3) := by
  have h := toggleFollow_updates_both_sides
    { id := 2, following := [3] } { id := 3, followers := [2] }
    { id := 2, following := [3].filter (fun uid => uid != 3) }
    { id := 3, followers := [2].filter (fun uid => uid != 2) } false
    (([2] : List Nat).filter (fun uid => uid != 2)).length
    (toggleFollow_of_following (by decide) (by decide))
  exact (h.1 (by decide)).1

/-- Claim C4: for users A and B with distinct ids whose stored follow
edge is well-formed (the edge for this pair is dually recorded and B has
no duplicate follower entries), `toggleFollow(A,B)` followed immediately
by `toggleFollow(A,B)` succeeds and restores the original
`isConnected(A,B)` value and the original follower counts of both
users. -/
theorem toggleFollow_twice_restores (a b : User) (hne : a.id ≠ b.id)
    (hsym : b.id ∈ a.following ↔ a.id ∈ b.followers)
    (hnd : b.followers.Nodup) :
    ∃ a2 b2, toggleFollowTwice a b = .ok (a2, b2) ∧
      isConnectedSpec a2 b2 = isConnectedSpec a b ∧
      a2.followers.length = a.followers.length ∧
      b2.followers.length = b.followers.length := by
  have hne2 : b.id ≠ a.id := Ne.symm hne
  by_cases hm : b.id ∈ a.following
  · have h1 := toggleFollow_of_following hne2 hm
    set a1 : User := { a with following := a.following.filter (fun uid => uid != b.id) }
    set b1 : User := { b with followers := b.followers.filter (fun uid => uid != a.id) }
    have hm1 : b.id ∉ a1.following := by
      simp [a1]
    have h2 := toggleFollow_of_not_following (a := a1) (b := b1) hne2 hm1
    refine ⟨{ a1 with following := a1.following ++ [b1.id] },
            { b1 with followers := b1.followers ++ [a1.id] }, ?_, ?_, ?_, ?_⟩
    · rw [toggleFollowTwice, h1]
      show toggleFollow a1 b1 >>= _ = _
      rw [h2]
      rfl
    · have hmem : a.following.contains b.id = true := by
        simp [List.contains, hm]
      simp [isConnectedSpec, List.contains, hm]
    · rfl
    · show (b.followers.filter (fun uid => uid != a.id) ++ [a.id]).length = b.followers.length
      rw [List.length_append, ← hnd.erase_eq_filter a.id,
          List.length_erase_of_mem (hsym.mp hm), List.length_singleton]
      exact Nat.succ_pred_eq_of_pos (List.length_pos.mpr (List.ne_nil_of_mem (hsym.mp hm)))
  · have h1 := toggleFollow_of_not_following hne2 hm
    set a1 : User := { a with following := a.following ++ [b.id] }
    set b1 : User := { b with followers := b.followers ++ [a.id] }
    have hm1 : b.id ∈ a1.following := by
      simp [a1]
    have h2 := toggleFollow_of_following (a := a1) (b := b1) hne2 hm1
    have hfa : a1.following.filter (fun uid => uid != b.id) = a.following := by
      show (a.following ++ [b.id]).filter (fun uid => uid != b.id) = a.following
      rw [List.filter_append]
      have h01 : a.following.filter (fun uid => uid != b.id) = a.following :=
        List.filter_eq_self.mpr (fun x hx => by
          simp only [bne_iff_ne, ne_eq, decide_eq_true_eq]
          intro hxb
          exact hm (hxb ▸ hx))
      have h02 : ([b.id] : List Nat).filter (fun uid => uid != b.id) = [] := by
        simp
      rw [h01, h02, List.append_nil]
    have hfb : b1.followers.filter (fun uid => uid != a.id) = b.followers := by
      show (b.followers ++ [a.id]).filter (fun uid => uid != a.id) = b.followers
      rw [List.filter_append]
      have hanotin : a.id ∉ b.followers := fun hin => hm (hsym.mpr hin)
      have h01 : b.followers.filter (fun uid => uid != a.id) = b.followers :=
        List.filter_eq_self.mpr (fun x hx => by
          simp only [bne_iff_ne, ne_eq, decide_eq_true_eq]
          intro hxa
          exact hanotin (hxa ▸ hx))
      have h02 : ([a.id] : List Nat).filter (fun uid => uid != a.id) = [] := by
        simp
      rw [h01, h02, List.append_nil]
    refine ⟨{ a1 with following := a1.following.filter (fun uid => uid != b1.id) },
            { b1 with followers := b1.followers.filter (fun uid => uid != a1.id) }, ?_, ?_, ?_, ?_⟩
    · rw [toggleFollowTwice, h1]
      show toggleFollow a1 b1 >>= _ = _
      rw [h2]
      rfl
    · show ((a1.following.filter (fun uid => uid != b1.id)).contains b1.id ||
             b1.following.contains a1.id || a1.id == b1.id) = isConnectedSpec a b
      have : (b1.id : Nat) = b.id := rfl
      rw [show b1.id = b.id from rfl, show a1.id = a.id from rfl, hfa]
      rfl
    · rfl
    · show (b1.followers.filter (fun uid => uid != a1.id)).length = b.followers.length
      rw [show a1.id = a.id from rfl, hfb]

theorem toggleFollow_twice_restores_witness :
    ∃ a2 b2, toggleFollowTwice { id := 1, following := [2] } { id := 2, followers := [1] } =
        .ok (a2, b2) ∧
      isConnectedSpec a2 b2 =
        isConnectedSpec { id := 1, following := [2] } { id := 2, followers := [1] } ∧
      a2.followers.length = ({ id := 1, following := [2] } : User).followers.length ∧
      b2.followers.length = ({ id := 2, followers := [1] } : User).followers.length :=
  toggleFollow_twice_restores { id := 1, following := [2] } { id := 2, followers := [1] }
    (by decide) (by decide) (by decide)

theorem isFollowingOrFollower_iff (cu pa : User) (authorId actorId : Nat) :
    isFollowingOrFollower cu pa authorId actorId = true ↔
      (authorId ∈ cu.following ∨ actorId ∈ pa.followers ∨ authorId = actorId) := by
  simp [isFollowingOrFollower, List.contains, or_assoc]

/-- Claim C1 fails on the code: with actor 1 who is followed by author 2
(so `isConnected` holds in the spec sense) but does not follow author 2,
the like attempt on post 10 by author 2 is rejected with the
not-connected 403; the gate never consults the `following` list of the
author. -/
theorem like_denied_although_followed_by_author :
    likePost [{ id := 1, followers := [2] }, { id := 2, following := [1] }]
        [{ id := 10, author := 2, content := "hello" }] 10 1 =
      .error (.notAuthorized
        "You must follow this user or be their follower to like their posts") ∧
    ({ id := 2, following := [1] } : User).following.contains 1 = true ∧
    isConnectedSpec { id := 1, followers := [2] } { id := 2, following := [1] } = true :=
  ⟨rfl, rfl, rfl⟩

/-- Claim C1 (amended): for an existing actor, an existing post and an
existing post author, the like and comment operations fail NotConnected
exactly when the actor does not follow the post author — neither the
author id in the actor following list nor the actor id in the author
followers list — and is not the author themselves; being followed by the
author grants no access by itself, and an author liking or commenting on
their own post is always allowed. -/
theorem like_comment_gate_characterization
    (users : List User) (posts : List Post) (postId actorId : Nat)
    (post : Post) (actor author : User) (content : String) (newCommentId : Nat)
    (hp : posts.find? (fun p => p.id == postId) = some post)
    (ha : users.find? (fun u => u.id == actorId) = some actor)
    (hau : users.find? (fun u => u.id == post.author) = some author)
    (hc : notEmpty content = true) :
    (likePost users posts postId actorId =
        .error (.notAuthorized
          "You must follow this user or be their follower to like their posts") ↔
      ¬(post.author ∈ actor.following ∨ actorId ∈ author.followers ∨ post.author = actorId)) ∧
    (addComment users posts postId actorId content newCommentId =
        .error (.notAuthorized
          "You must follow this user or be their follower to comment on their posts") ↔
      ¬(post.author ∈ actor.following ∨ actorId ∈ author.followers ∨ post.author = actorId)) ∧
    (post.author = actorId →
      (∃ p2, likePost users posts postId actorId = .ok p2) ∧
      (∃ p2, addComment users posts postId actorId content newCommentId = .ok p2)) := by
  have hgate := isFollowingOrFollower_iff actor author post.author actorId
  by_cases hg : post.author ∈ actor.following ∨ actorId ∈ author.followers ∨ post.author = actorId
  · have hb : isFollowingOrFollower actor author post.author actorId = true := hgate.mpr hg
    refine ⟨?_, ?_, fun _ => ⟨?_, ?_⟩⟩
    · simp [likePost, hp, ha, hau, hb, hg]
    · simp [addComment, hc, hp, ha, hau, hb, hg]
    · exact ⟨{ post with likes := toggleLike post.likes actorId },
        by simp [likePost, hp, ha, hau, hb]⟩
    · exact ⟨{ post with comments := post.comments ++
          [{ id := newCommentId, user := actorId, content := content }] },
        by simp [addComment, hc, hp, ha, hau, hb]⟩
  · have hb : isFollowingOrFollower actor author post.author actorId = false :=
      Bool.eq_false_iff.mpr (fun ht => hg (hgate.mp ht))
    refine ⟨?_, ?_, fun hself => absurd (Or.inr (Or.inr hself)) hg⟩
    · simp [likePost, hp, ha, hau, hb, hg]
    · simp [addComment, hc, hp, ha, hau, hb, hg]

theorem like_comment_gate_characterization_witness :
    (likePost [{ id := 1 }, { id := 2 }] [{ id := 10, author := 2, content := "hi" }] 10 1 =
        .error (.notAuthorized
          "You must follow this user or be their follower to like their posts") ↔
      ¬((2 : Nat) ∈ ([] : List Nat) ∨ (1 : Nat) ∈ ([] : List Nat) ∨ (2 : Nat) = 1)) :=
  (like_comment_gate_characterization
    [{ id := 1 }, { id := 2 }] [{ id := 10, author := 2, content := "hi" }] 10 1
    { id := 10, author := 2, content := "hi" } { id := 1 } { id := 2 } "c" 77
    rfl rfl rfl rfl).1

/-- Claim C6: with a well-formed email and a password field present, the
error produced when the email matches no user is identical in kind and
message to the error produced when the email matches a user but password
verification fails: both are the 400 "Invalid credentials". -/
theorem login_uniform_invalid_credentials
    (isEmail : String → Bool) (verify : String → String → Bool)
    (users : List User) (email : String) (password : Option String)
    (hmail : isEmail email = true) (hpw : password.isSome = true) :
    (users.find? (fun u => u.email == email) = none →
      loginUser isEmail verify users email password =
        .error (.badRequest "Invalid credentials")) ∧
    (∀ u, users.find? (fun u2 => u2.email == email) = some u →
      verify (password.getD "") u.password = false →
      loginUser isEmail verify users email password =
        .error (.badRequest "Invalid credentials")) := by
  constructor
  · intro hfind
    simp [loginUser, loginValidation, hmail, hpw, hfind]
  · intro u hfind hv
    simp [loginUser, loginValidation, hmail, hpw, hfind, hv]

theorem login_uniform_invalid_credentials_witness :
    loginUser (fun _ => true) (fun _ _ => false) [] "a@b.c" (some "pw") =
      .error (.badRequest "Invalid credentials") :=
  (login_uniform_invalid_credentials (fun _ => true) (fun _ _ => false) []
    "a@b.c" (some "pw") rfl rfl).1 rfl

theorem notEmpty_eq_false_iff (s : String) : notEmpty s = false ↔ s = "" := by
  unfold notEmpty
  constructor
  · intro h
    have hlen : s.length = 0 := by simpa using h
    rw [String.ext_iff]
    exact List.length_eq_zero.mp hlen
  · rintro rfl
    rfl

/-- Claim C7 fails on the code: a content consisting of a single space
consists only of whitespace (so it is empty after trimming), yet the
create handler accepts it and stores it verbatim, because the content
validator checks only that the raw length is nonzero. -/
theorem whitespace_content_accepted :
    (" ".toList.all Char.isWhitespace) = true ∧
    (createPost [] 1 " " 10).1 = .ok { id := 10, author := 1, content := " " } ∧
    (createPost [] 1 " " 10).2 = [{ id := 10, author := 1, content := " " }] :=
  ⟨by decide, rfl, rfl⟩

/-- Claim C7 (amended): post create and update fail EmptyContent exactly
when the supplied content is the empty string — no trimming is applied,
so whitespace-only content passes validation — and otherwise the content
is accepted and stored as given. -/
theorem content_validation_exact_empty
    (posts : List Post) (postId actorId newId : Nat) (content : String) :
    (content = "" →
      (createPost posts actorId content newId).1 =
        .error (.validation ["Content is required"]) ∧
      (createPost posts actorId content newId).2 = posts ∧
      updatePost posts postId actorId content =
        .error (.validation ["Content is required"])) ∧
    (content ≠ "" →
      (createPost posts actorId content newId).1 =
        .ok { id := newId, author := actorId, content := content } ∧
      (createPost posts actorId content newId).2 =
        posts ++ [{ id := newId, author := actorId, content := content }]) ∧
    (∀ post, posts.find? (fun p => p.id == postId) = some post → post.author = actorId →
      content ≠ "" →
      updatePost posts postId actorId content = .ok { post with content := content }) := by
  refine ⟨fun hempty => ?_, fun hne => ?_, fun post hp hauth hne => ?_⟩
  · have h0 : notEmpty content = false := (notEmpty_eq_false_iff content).mpr hempty
    refine ⟨?_, ?_, ?_⟩ <;> simp [createPost, updatePost, h0]
  · have h1 : notEmpty content = true := by
      cases hb : notEmpty content with
      | false => exact absurd ((notEmpty_eq_false_iff content).mp hb) hne
      | true => rfl
    exact ⟨by simp [createPost, h1], by simp [createPost, h1]⟩
  · have h1 : notEmpty content = true := by
      cases hb : notEmpty content with
      | false => exact absurd ((notEmpty_eq_false_iff content).mp hb) hne
      | true => rfl
    have h2 : (post.author != actorId) = false := by simp [hauth]
    simp [updatePost, h1, hp, h2]

theorem content_validation_exact_empty_witness :
    (createPost [] (1 : Nat) "" 10).1 = .error (.validation ["Content is required"]) ∧
    (createPost [] (1 : Nat) "hello" 10).1 = .ok { id := 10, author := 1, content := "hello" } :=
  ⟨((content_validation_exact_empty [] 9 1 10 "").1 rfl).1,
   ((content_validation_exact_empty [] 9 1 10 "hello").2.1 (by decide)).1⟩

/-- Claim C8: deleting a comment fails NotFound when the post or the
comment id is absent; when the comment exists (comment ids being unique
within their post, per the data model), the operation fails NotAuthorized
for every actor other than the comment author — including the post
author when they did not write the comment — and succeeds exactly for the
comment author, removing that comment. -/
theorem deleteComment_author_only (posts : List Post) (postId commentId actorId : Nat) :
    (posts.find? (fun p => p.id == postId) = none →
      deleteComment posts postId commentId actorId = .error (.notFound "Post not found")) ∧
    (∀ post, posts.find? (fun p => p.id == postId) = some post →
      ((∀ c ∈ post.comments, c.id ≠ commentId) →
        deleteComment posts postId commentId actorId =
          .error (.notFound "Comment not found")) ∧
      (∀ c, c ∈ post.comments → c.id = commentId →
        (∀ x ∈ post.comments, ∀ y ∈ post.comments, x.id = y.id → x = y) →
        (c.user ≠ actorId →
          deleteComment posts postId commentId actorId =
            .error (.notAuthorized "Not authorized to delete this comment")) ∧
        (c.user = actorId →
          deleteComment posts postId commentId actorId =
            .ok { post with
                  comments := post.comments.eraseP (fun x => x.id == commentId) }))) := by
  constructor
  · intro h
    simp [deleteComment, h]
  · intro post hp
    constructor
    · intro habs
      have hidx : findIndex (fun c => c.id == commentId) post.comments = none :=
        (findIndex_eq_none_iff _ _).mpr (fun c hc => by simp [habs c hc])
      simp [deleteComment, hp, hidx]
    · intro c hc hcid huniq
      cases hfi : findIndex (fun c2 => c2.id == commentId) post.comments with
      | none =>
        exfalso
        have := (findIndex_eq_none_iff _ _).mp hfi c hc
        simp [hcid] at this
      | some i =>
        have hmem := findIndex_getD_mem hfi default
        have hgd : post.comments.getD i default = c := by
          apply huniq _ hmem.1 _ hc
          have h2 : (post.comments.getD i default).id = commentId := by
            have := hmem.2
            simpa using this
          rw [h2, hcid]
        have herase := findIndex_eraseIdx hfi
        have hgd2 : post.comments[i]?.getD default = c := by
          rw [← List.getD_eq_getElem?_getD]
          exact hgd
        constructor
        · intro hne
          simp [deleteComment, hp, hfi, hgd2, hne]
        · intro heq
          simp [deleteComment, hp, hfi, hgd2, heq, herase]

theorem deleteComment_author_only_witness :
    deleteComment [{ id := 10, author := 1, content := "p",
                     comments := [{ id := 5, user := 2, content := "c" }] }] 10 5 1 =
      .error (.notAuthorized "Not authorized to delete this comment") :=
  (((deleteComment_author_only
      [{ id := 10, author := 1, content := "p",
         comments := [{ id := 5, user := 2, content := "c" }] }] 10 5 1).2
    { id := 10, author := 1, content := "p",
      comments := [{ id := 5, user := 2, content := "c" }] } rfl).2
    { id := 5, user := 2, content := "c" } (by decide) rfl (by decide)).1 (by decide)

/-- Claim C9: a note update by its owner with non-empty title and content
preserves the prior `isPinned` value when the field is absent, stores an
explicit true or false when one is supplied, and resets `tags` to the
empty sequence when that field is absent. -/
theorem updateNote_pinned_preserved_tags_reset
    (notes : List Note) (noteId actorId : Nat) (title content : String) (note : Note)
    (hfind : notes.find? (fun n => n.id == noteId) = some note)
    (howner : note.user = actorId)
    (ht : notEmpty title = true) (hc : notEmpty content = true) :
    (∀ tags, updateNote notes noteId actorId title content tags none =
      .ok { note with title := title, content := content, tags := tags.getD [],
                      isPinned := note.isPinned }) ∧
    (∀ tags b, updateNote notes noteId actorId title content tags (some b) =
      .ok { note with title := title, content := content, tags := tags.getD [],
                      isPinned := b }) ∧
    (∀ ip, updateNote notes noteId actorId title content none ip =
      .ok { note with title := title, content := content, tags := [],
                      isPinned := ip.getD note.isPinned }) := by
  have hb : (note.user != actorId) = false := by simp [howner]
  refine ⟨fun tags => ?_, fun tags b => ?_, fun ip => ?_⟩ <;>
    simp [updateNote, noteValidation, ht, hc, hfind, hb]

theorem updateNote_pinned_preserved_tags_reset_witness :
    updateNote [{ id := 4, user := 1, title := "t", content := "c", tags := ["old"],
                  isPinned := true }] 4 1 "t2" "c2" none none =
      .ok { id := 4, user := 1, title := "t2", content := "c2", tags := [],
            isPinned := true } :=
  (updateNote_pinned_preserved_tags_reset
    [{ id := 4, user := 1, title := "t", content := "c", tags := ["old"], isPinned := true }]
    4 1 "t2" "c2"
    { id := 4, user := 1, title := "t", content := "c", tags := ["old"], isPinned := true }
    rfl rfl rfl rfl).1 none

/-- Claim C10: registration rejects, with a validation failure and before
any duplicate check or user creation, every request whose username is
shorter than 3 characters, whose password is shorter than 6 characters,
or whose email the validator rejects; the user store is returned
unchanged, whatever its contents. -/
theorem register_rejects_invalid
    (isEmail : String → Bool) (hash : String → String) (users : List User)
    (username email password : String) (newId : Nat)
    (h : username.length < 3 ∨ isEmail email = false ∨ password.length < 6) :
    registerValidation isEmail username email password ≠ [] ∧
    (registerUser isEmail hash users username email password newId).1 =
      .error (.validation (registerValidation isEmail username email password)) ∧
    (registerUser isEmail hash users username email password newId).2 = users := by
  have hne : registerValidation isEmail username email password ≠ [] := by
    unfold registerValidation
    rcases h with h | h | h
    · simp [h]
    · simp [h, List.append_eq_nil]
    · simp [h, List.append_eq_nil]
  refine ⟨hne, ?_, ?_⟩ <;>
    · unfold registerUser
      rw [if_pos hne]

theorem register_rejects_invalid_witness :
    (registerUser (fun _ => true) (fun s => s) [] "ab" "e@x.zz" "secret77" 5).1 =
      .error (.validation (registerValidation (fun _ => true) "ab" "e@x.zz" "secret77")) ∧
    (registerUser (fun _ => true) (fun s => s) [] "ab" "e@x.zz" "secret77" 5).2 = [] :=
  ⟨(register_rejects_invalid (fun _ => true) (fun s => s) [] "ab" "e@x.zz" "secret77" 5
      (Or.inl (by decide))).2.1,
   (register_rejects_invalid (fun _ => true) (fun s => s) [] "ab" "e@x.zz" "secret77" 5
      (Or.inl (by decide))).2.2⟩

end WriteX
